import Mathlib

/-!
Verification of the "budgie" editor-automation extension
(src/src/extension.ts) against its natural-language specification.

The TypeScript source is shallowly embedded: `Math.floor(Math.random() * n)`
is modelled as an arbitrary natural number taken modulo `n` (every index in
`[0, n)` is reachable, and only those); editor state is passed explicitly;
the cooperative `runLoop` is modelled as a trace of events driven by an
oracle giving the value of the `isRunning` flag at each point where the
source reads it.
-/

namespace Budgie

/-- Embeds `vscode.Uri` as its `fsPath` (the only field the source reads). -/
structure Uri where
  fsPath : String
deriving DecidableEq, Repr

/-- The candidate pool built on line 23 of `extension.ts`:
`exclude ? files.filter(f => f.fsPath !== exclude.fsPath) : files`. -/
def availableFiles (files : List Uri) (exclude : Option Uri) : List Uri :=
  match exclude with
  | some e => files.filter (fun f => f.fsPath != e.fsPath)
  | none => files

/-- Embeds `getRandomFile` (lines 22-29).  `rand` stands for the value that
`Math.random()` turns into an index: `rand % available.length` ranges over
exactly the indices `Math.floor(Math.random() * available.length)` can take.
The body names `availableFiles files exclude` where the source binds it to the
local `available`. -/
def getRandomFile (files : List Uri) (exclude : Option Uri) (rand : Nat) :
    Option Uri :=
  if (availableFiles files exclude).length = 0 then none
  else (availableFiles files exclude)[rand %
        (availableFiles files exclude).length]?

theorem availableFiles_none (files : List Uri) :
    availableFiles files none = files := rfl

theorem getRandomFile_isSome_of_ne_nil (files : List Uri) (rand : Nat)
    (h : files ≠ []) : (getRandomFile files none rand).isSome := by
  unfold getRandomFile availableFiles
  have hlen : files.length ≠ 0 := fun h0 => h (List.length_eq_zero.mp h0)
  simp only [if_neg hlen]
  have hlt : rand % files.length < files.length :=
    Nat.mod_lt _ (Nat.pos_of_ne_zero hlen)
  simp [List.getElem?_eq_getElem hlt]

theorem mem_of_getRandomFile_eq_some (files : List Uri) (exclude : Option Uri)
    (rand : Nat) (f : Uri) (h : getRandomFile files exclude rand = some f) :
    f ∈ availableFiles files exclude := by
  unfold getRandomFile at h
  split at h
  · exact absurd h (by simp)
  case isFalse hlen =>
    have hlt : rand % (availableFiles files exclude).length <
        (availableFiles files exclude).length :=
      Nat.mod_lt _ (Nat.pos_of_ne_zero hlen)
    rw [List.getElem?_eq_getElem hlt] at h
    have hf : (availableFiles files exclude)[rand %
        (availableFiles files exclude).length] = f := by
      exact Option.some_injective _ h
    rw [← hf]
    exact List.getElem_mem hlt

/-- **C1.** For every non-empty file list and excluded file `e ∈ files`,
`getRandomFile` never returns a file whose path equals `e`'s path, and it
returns `none` only when every element of `files` has `e`'s path. -/
theorem getRandomFile_exclude_correct (files : List Uri) (e : Uri) (rand : Nat)
    (hne : files ≠ []) (hmem : e ∈ files) :
    (∀ f, getRandomFile files (some e) rand = some f → f.fsPath ≠ e.fsPath) ∧
    (getRandomFile files (some e) rand = none →
      ∀ f ∈ files, f.fsPath = e.fsPath) := by
  constructor
  · intro f hf
    have hm := mem_of_getRandomFile_eq_some files (some e) rand f hf
    unfold availableFiles at hm
    have := List.of_mem_filter hm
    simpa [bne_iff_ne] using this
  · intro hnone f hf
    unfold getRandomFile at hnone
    split at hnone
    case isTrue hlen =>
      have hempty : availableFiles files (some e) = [] :=
        List.length_eq_zero.mp hlen
      unfold availableFiles at hempty
      have := List.filter_eq_nil_iff.mp hempty f hf
      simpa [bne_iff_ne] using this
    case isFalse hlen =>
      have hlt : rand % (availableFiles files (some e)).length <
          (availableFiles files (some e)).length :=
        Nat.mod_lt _ (Nat.pos_of_ne_zero hlen)
      rw [List.getElem?_eq_getElem hlt] at hnone
      exact absurd hnone (by simp)

/-- **C1 witness.** -/
theorem getRandomFile_exclude_correct_witness :
    ([Uri.mk "a", Uri.mk "b"] ≠ ([] : List Uri)) ∧
    (Uri.mk "a" ∈ [Uri.mk "a", Uri.mk "b"]) ∧
    ((∀ f, getRandomFile [Uri.mk "a", Uri.mk "b"] (some (Uri.mk "a")) 0 =
        some f → f.fsPath ≠ (Uri.mk "a").fsPath) ∧
     (getRandomFile [Uri.mk "a", Uri.mk "b"] (some (Uri.mk "a")) 0 = none →
        ∀ f ∈ [Uri.mk "a", Uri.mk "b"], f.fsPath = (Uri.mk "a").fsPath)) :=
  ⟨by decide, by decide,
    getRandomFile_exclude_correct [Uri.mk "a", Uri.mk "b"] (Uri.mk "a") 0
      (by decide) (by decide)⟩

/-- **C2 counterexample.**  The filter on line 23 removes *every* item whose
path equals the excluded path, so on a list with a duplicated path the pool
shrinks by more than one: with `files = [a, a]` and exclude `a`, the pool is
empty although `files.length - 1 = 1`. -/
theorem getRandomFile_pool_can_lose_two :
    (availableFiles [Uri.mk "a", Uri.mk "a"] (some (Uri.mk "a"))).length = 0 ∧
    [Uri.mk "a", Uri.mk "a"].length - 1 = 1 ∧
    ¬ ((availableFiles [Uri.mk "a", Uri.mk "a"]
        (some (Uri.mk "a"))).length ≥ [Uri.mk "a", Uri.mk "a"].length - 1) := by
  refine ⟨by decide, by decide, by decide⟩

theorem length_filter_path_split (e : Uri) (files : List Uri) :
    (files.filter (fun f => f.fsPath == e.fsPath)).length +
      (files.filter (fun f => f.fsPath != e.fsPath)).length = files.length := by
  induction files with
  | nil => simp
  | cons a as ih =>
    by_cases h : a.fsPath = e.fsPath
    · simp [List.filter_cons, h]
      omega
    · simp [List.filter_cons, h]
      omega

/-- **C2 (amended).**  When an exclude argument is given, `getRandomFile`
removes exactly the items whose path equals the excluded file's path; hence
for every input list in which at most one element carries the excluded path
(in particular, any list of pairwise-distinct paths), the pool it picks from
has length at least `files.length - 1`. -/
theorem getRandomFile_pool_lower_bound (files : List Uri) (e : Uri)
    (hdup : (files.filter (fun f => f.fsPath == e.fsPath)).length ≤ 1) :
    (∀ f ∈ availableFiles files (some e), f.fsPath ≠ e.fsPath) ∧
    files.length - 1 ≤ (availableFiles files (some e)).length := by
  constructor
  · intro f hf
    have := List.of_mem_filter hf
    simpa [bne_iff_ne] using this
  · have hsplit := length_filter_path_split e files
    simp only [availableFiles]
    omega

/-- **C2 amended witness.** -/
theorem getRandomFile_pool_lower_bound_witness :
    (([Uri.mk "a", Uri.mk "b"].filter
        (fun f => f.fsPath == (Uri.mk "a").fsPath)).length ≤ 1) ∧
    ((∀ f ∈ availableFiles [Uri.mk "a", Uri.mk "b"] (some (Uri.mk "a")),
        f.fsPath ≠ (Uri.mk "a").fsPath) ∧
     [Uri.mk "a", Uri.mk "b"].length - 1 ≤
        (availableFiles [Uri.mk "a", Uri.mk "b"] (some (Uri.mk "a"))).length) :=
  ⟨by decide,
    getRandomFile_pool_lower_bound [Uri.mk "a", Uri.mk "b"] (Uri.mk "a")
      (by decide)⟩

/-- Embeds `vscode.Position` (line and character, JS numbers). -/
structure Position where
  line : Int
  character : Int
deriving DecidableEq, Repr

/-- Embeds `vscode.Selection` by its anchor and active ends. -/
structure Selection where
  anchor : Position
  active : Position
deriving DecidableEq, Repr

/-- Embeds the part of `vscode.TextDocument` the source reads:
`lineCount`, `lineAt(l).text.length`, and `getText(range)`. -/
structure Document where
  lineCount : Nat
  lineTextLength : Int → Nat
  textBetween : Position → Position → String

/-- Embeds the part of `vscode.TextEditor` the source touches: its document,
its mutable `selection`, and the history of ranges passed to `revealRange`
(an append records one reveal; an unchanged list records that no reveal
happened). -/
structure TextEditor where
  document : Document
  selection : Selection
  revealed : List (Position × Position)

/-- Embeds `selectRandomLines` (lines 36-54).  Returns the string the source
returns together with the editor that the source mutated in place.  `rand`
models `Math.random()` as in `getRandomFile`: `rand % (maxStartLine + 1)`
ranges over exactly the values `Math.floor(Math.random() * (maxStartLine + 1))`
can take.  `Math.max(0, totalLines - lineCount)` is `max 0 (...)` over `Int`. -/
def selectRandomLines (editor : TextEditor) (lineCount : Nat) (rand : Nat) :
    String × TextEditor :=
  if editor.document.lineCount = 0 then ("", editor)
  else
    let maxStartLine : Int :=
      max 0 ((editor.document.lineCount : Int) - (lineCount : Int))
    let randomLine : Int := (rand : Int) % (maxStartLine + 1)
    let endLine : Int :=
      min (randomLine + (lineCount : Int) - 1)
        ((editor.document.lineCount : Int) - 1)
    let startPos : Position := ⟨randomLine, 0⟩
    let endPos : Position := ⟨endLine, (editor.document.lineTextLength endLine : Int)⟩
    (editor.document.textBetween startPos endPos,
      { editor with
        selection := ⟨startPos, endPos⟩,
        revealed := editor.revealed ++ [(startPos, endPos)] })

theorem selectRandomLines_of_pos (editor : TextEditor) (lineCount rand : Nat)
    (h : editor.document.lineCount ≠ 0) :
    (selectRandomLines editor lineCount rand).2.selection.anchor.line =
      (rand : Int) %
        (max 0 ((editor.document.lineCount : Int) - (lineCount : Int)) + 1) ∧
    (selectRandomLines editor lineCount rand).2.selection.active.line =
      min ((rand : Int) %
          (max 0 ((editor.document.lineCount : Int) - (lineCount : Int)) + 1) +
          (lineCount : Int) - 1)
        ((editor.document.lineCount : Int) - 1) := by
  unfold selectRandomLines
  rw [if_neg h]
  exact ⟨rfl, rfl⟩

/-- **C3.** For a document with at least one line and a window size of at
least one, the selection produced by `selectRandomLines` satisfies
`0 ≤ startLine ≤ endLine ≤ totalLines - 1` and covers at most `lineCount`
lines, whatever the random source yields; and on a document with zero lines
the result is the empty string. -/
theorem selectRandomLines_range_bounds (editor : TextEditor)
    (lineCount rand : Nat) (hl : 1 ≤ editor.document.lineCount)
    (hw : 1 ≤ lineCount) :
    (0 ≤ (selectRandomLines editor lineCount rand).2.selection.anchor.line ∧
     (selectRandomLines editor lineCount rand).2.selection.anchor.line ≤
       (selectRandomLines editor lineCount rand).2.selection.active.line ∧
     (selectRandomLines editor lineCount rand).2.selection.active.line ≤
       (editor.document.lineCount : Int) - 1 ∧
     (selectRandomLines editor lineCount rand).2.selection.active.line -
       (selectRandomLines editor lineCount rand).2.selection.anchor.line + 1 ≤
       (lineCount : Int)) ∧
    (∀ editor0 : TextEditor, editor0.document.lineCount = 0 →
      ∀ lc r : Nat, (selectRandomLines editor0 lc r).1 = "") := by
  constructor
  · have h0 : editor.document.lineCount ≠ 0 := by omega
    obtain ⟨ha, hb⟩ := selectRandomLines_of_pos editor lineCount rand h0
    rw [ha, hb]
    have hmodpos : (0 : Int) <
        max 0 ((editor.document.lineCount : Int) - (lineCount : Int)) + 1 := by
      have := le_max_left (0 : Int)
        ((editor.document.lineCount : Int) - (lineCount : Int))
      omega
    have hmod0 : 0 ≤ (rand : Int) %
        (max 0 ((editor.document.lineCount : Int) - (lineCount : Int)) + 1) :=
      Int.emod_nonneg _ (by omega)
    have hmodlt : (rand : Int) %
        (max 0 ((editor.document.lineCount : Int) - (lineCount : Int)) + 1) <
        max 0 ((editor.document.lineCount : Int) - (lineCount : Int)) + 1 :=
      Int.emod_lt_of_pos _ hmodpos
    have hmax : max 0 ((editor.document.lineCount : Int) - (lineCount : Int)) ≤
        (editor.document.lineCount : Int) - 1 := by
      have h1 : (1 : Int) ≤ (editor.document.lineCount : Int) := by
        exact_mod_cast hl
      have h2 : (1 : Int) ≤ (lineCount : Int) := by exact_mod_cast hw
      rw [max_le_iff]
      omega
    have h2 : (1 : Int) ≤ (lineCount : Int) := by exact_mod_cast hw
    refine ⟨hmod0, ?_, ?_, ?_⟩
    · rw [le_min_iff]
      omega
    · exact min_le_right _ _
    · have := min_le_left ((rand : Int) %
        (max 0 ((editor.document.lineCount : Int) - (lineCount : Int)) + 1) +
        (lineCount : Int) - 1) ((editor.document.lineCount : Int) - 1)
      omega
  · intro editor0 h0 lc r
    unfold selectRandomLines
    rw [if_pos h0]

/-- **C3 witness.** -/
theorem selectRandomLines_range_bounds_witness :
    (1 ≤ (TextEditor.mk ⟨3, fun _ => 0, fun _ _ => ""⟩
        ⟨⟨0, 0⟩, ⟨0, 0⟩⟩ []).document.lineCount) ∧
    (1 ≤ 3) ∧
    ((0 ≤ (selectRandomLines (TextEditor.mk ⟨3, fun _ => 0, fun _ _ => ""⟩
          ⟨⟨0, 0⟩, ⟨0, 0⟩⟩ []) 3 7).2.selection.anchor.line ∧
      (selectRandomLines (TextEditor.mk ⟨3, fun _ => 0, fun _ _ => ""⟩
          ⟨⟨0, 0⟩, ⟨0, 0⟩⟩ []) 3 7).2.selection.anchor.line ≤
        (selectRandomLines (TextEditor.mk ⟨3, fun _ => 0, fun _ _ => ""⟩
          ⟨⟨0, 0⟩, ⟨0, 0⟩⟩ []) 3 7).2.selection.active.line ∧
      (selectRandomLines (TextEditor.mk ⟨3, fun _ => 0, fun _ _ => ""⟩
          ⟨⟨0, 0⟩, ⟨0, 0⟩⟩ []) 3 7).2.selection.active.line ≤
        ((TextEditor.mk ⟨3, fun _ => 0, fun _ _ => ""⟩
          ⟨⟨0, 0⟩, ⟨0, 0⟩⟩ []).document.lineCount : Int) - 1 ∧
      (selectRandomLines (TextEditor.mk ⟨3, fun _ => 0, fun _ _ => ""⟩
          ⟨⟨0, 0⟩, ⟨0, 0⟩⟩ []) 3 7).2.selection.active.line -
        (selectRandomLines (TextEditor.mk ⟨3, fun _ => 0, fun _ _ => ""⟩
          ⟨⟨0, 0⟩, ⟨0, 0⟩⟩ []) 3 7).2.selection.anchor.line + 1 ≤
        ((3 : Nat) : Int)) ∧
     (∀ editor0 : TextEditor, editor0.document.lineCount = 0 →
       ∀ lc r : Nat, (selectRandomLines editor0 lc r).1 = "")) :=
  ⟨by decide, by decide,
    selectRandomLines_range_bounds
      (TextEditor.mk ⟨3, fun _ => 0, fun _ _ => ""⟩ ⟨⟨0, 0⟩, ⟨0, 0⟩⟩ [])
      3 7 (by decide) (by decide)⟩

/-- **C4.** On a document with exactly 2 lines and a 5-line window, the
selection produced by `selectRandomLines` is exactly lines 0 through 1,
whatever the random source yields. -/
theorem selectRandomLines_two_lines_window_five (editor : TextEditor)
    (rand : Nat) (h : editor.document.lineCount = 2) :
    (selectRandomLines editor 5 rand).2.selection.anchor.line = 0 ∧
    (selectRandomLines editor 5 rand).2.selection.active.line = 1 := by
  obtain ⟨ha, hb⟩ := selectRandomLines_of_pos editor 5 rand (by omega)
  rw [ha, hb, h]
  norm_num [Int.emod_one]

/-- **C4 witness.** -/
theorem selectRandomLines_two_lines_window_five_witness :
    ((TextEditor.mk ⟨2, fun _ => 0, fun _ _ => ""⟩
        ⟨⟨0, 0⟩, ⟨0, 0⟩⟩ []).document.lineCount = 2) ∧
    ((selectRandomLines (TextEditor.mk ⟨2, fun _ => 0, fun _ _ => ""⟩
        ⟨⟨0, 0⟩, ⟨0, 0⟩⟩ []) 5 9).2.selection.anchor.line = 0 ∧
     (selectRandomLines (TextEditor.mk ⟨2, fun _ => 0, fun _ _ => ""⟩
        ⟨⟨0, 0⟩, ⟨0, 0⟩⟩ []) 5 9).2.selection.active.line = 1) :=
  ⟨rfl, selectRandomLines_two_lines_window_five
    (TextEditor.mk ⟨2, fun _ => 0, fun _ _ => ""⟩ ⟨⟨0, 0⟩, ⟨0, 0⟩⟩ []) 9 rfl⟩

/-- **C10.** On a document with 0 lines, `selectRandomLines` returns the
empty string and the editor completely unchanged: the selection field and
the reveal history are exactly those of the input editor (the early return
on line 40 fires before any selection or reveal is made). -/
theorem selectRandomLines_zero_lines_no_effect (editor : TextEditor)
    (lineCount rand : Nat) (h : editor.document.lineCount = 0) :
    selectRandomLines editor lineCount rand = ("", editor) := by
  unfold selectRandomLines
  rw [if_pos h]

/-- **C10 witness.** -/
theorem selectRandomLines_zero_lines_no_effect_witness :
    selectRandomLines (TextEditor.mk ⟨0, fun _ => 0, fun _ _ => ""⟩
        ⟨⟨0, 0⟩, ⟨0, 0⟩⟩ []) 3 5 =
      ("", TextEditor.mk ⟨0, fun _ => 0, fun _ _ => ""⟩
        ⟨⟨0, 0⟩, ⟨0, 0⟩⟩ []) :=
  selectRandomLines_zero_lines_no_effect
    (TextEditor.mk ⟨0, fun _ => 0, fun _ _ => ""⟩ ⟨⟨0, 0⟩, ⟨0, 0⟩⟩ []) 3 5 rfl

/-- One iteration of the body of the `while` loop in `scrollUpAndDown`
(lines 72-84): the `(currentLine, goingDown)` pair after the branch that
advances by 10, clamps at the boundaries, and reverses direction. -/
def scrollStep (lineCount : Nat) : Int × Bool → Int × Bool
  | (currentLine, goingDown) =>
    if goingDown then
      if (lineCount : Int) - 1 ≤ currentLine + 10 then
        ((lineCount : Int) - 1, false)
      else (currentLine + 10, true)
    else
      if currentLine - 10 ≤ 0 then (0, true)
      else (currentLine - 10, false)

/-- The lines revealed by `scrollUpAndDown` (lines 61-88), starting from a
given `(currentLine, goingDown)` state: each iteration first reveals
`currentLine` (line 70) and then advances by `scrollStep`.  `fuel` is the
number of iterations the deadline and the running flag allow (the claim is
proved for every such number). -/
def scrollReveals (lineCount : Nat) : Nat → Int × Bool → List Int
  | 0, _ => []
  | fuel + 1, st => st.1 :: scrollReveals lineCount fuel (scrollStep lineCount st)

/-- `scrollUpAndDown` starts at `currentLine = 0`, `goingDown = true`
(lines 65-66). -/
def scrollUpAndDown (lineCount fuel : Nat) : List Int :=
  scrollReveals lineCount fuel (0, true)

theorem scrollStep_preserves_bounds (lineCount : Nat)
    (h : 1 ≤ lineCount) (st : Int × Bool)
    (hlo : 0 ≤ st.1) (hhi : st.1 ≤ (lineCount : Int) - 1) :
    0 ≤ (scrollStep lineCount st).1 ∧
    (scrollStep lineCount st).1 ≤ (lineCount : Int) - 1 := by
  obtain ⟨c, d⟩ := st
  have h1 : (1 : Int) ≤ (lineCount : Int) := by exact_mod_cast h
  simp only [scrollStep]
  by_cases hd : d
  · by_cases hc : (lineCount : Int) - 1 ≤ c + 10
    · simp only [hd, if_true, if_pos hc]
      constructor <;> simp <;> omega
    · simp only [hd, if_true, if_neg hc]
      simp at hlo hhi ⊢
      omega
  · by_cases hc : c - 10 ≤ 0
    · simp only [hd, if_false, if_pos hc]
      constructor <;> simp <;> omega
    · simp only [hd, if_false, if_neg hc]
      simp at hlo hhi ⊢
      omega

theorem scrollReveals_bounded (lineCount : Nat) (h : 1 ≤ lineCount)
    (fuel : Nat) :
    ∀ st : Int × Bool, 0 ≤ st.1 → st.1 ≤ (lineCount : Int) - 1 →
      ∀ l ∈ scrollReveals lineCount fuel st,
        0 ≤ l ∧ l ≤ (lineCount : Int) - 1 := by
  induction fuel with
  | zero => intro st _ _ l hl; exact absurd hl (by simp [scrollReveals])
  | succ n ih =>
    intro st hlo hhi l hl
    rw [scrollReveals] at hl
    rcases List.mem_cons.mp hl with heq | hmem
    · exact heq ▸ ⟨hlo, hhi⟩
    · obtain ⟨h1, h2⟩ := scrollStep_preserves_bounds lineCount h st hlo hhi
      exact ih (scrollStep lineCount st) h1 h2 l hmem

/-- **C8.** For every document with at least one line, every line revealed
during the scroll animation lies within `[0, lineCount - 1]`, however many
iterations the deadline allows; and on reaching either boundary the tracked
line is clamped to that boundary (`lineCount - 1` going down, `0` going up)
and the direction of movement reverses. -/
theorem scrollUpAndDown_bounded_and_reverses (lineCount fuel : Nat)
    (h : 1 ≤ lineCount) :
    (∀ l ∈ scrollUpAndDown lineCount fuel, 0 ≤ l ∧ l ≤ (lineCount : Int) - 1) ∧
    (∀ c : Int, (lineCount : Int) - 1 ≤ c + 10 →
      scrollStep lineCount (c, true) = ((lineCount : Int) - 1, false)) ∧
    (∀ c : Int, c - 10 ≤ 0 →
      scrollStep lineCount (c, false) = (0, true)) := by
  refine ⟨?_, ?_, ?_⟩
  · intro l hl
    have h1 : (1 : Int) ≤ (lineCount : Int) := by exact_mod_cast h
    exact scrollReveals_bounded lineCount h fuel (0, true)
      (by simp) (by simp; omega) l hl
  · intro c hc
    simp [scrollStep, hc]
  · intro c hc
    simp [scrollStep, hc]

/-- **C8 witness.** -/
theorem scrollUpAndDown_bounded_and_reverses_witness :
    (1 ≤ 25) ∧
    ((∀ l ∈ scrollUpAndDown 25 6, 0 ≤ l ∧ l ≤ (25 : Int) - 1) ∧
     (∀ c : Int, (25 : Int) - 1 ≤ c + 10 →
       scrollStep 25 (c, true) = ((25 : Int) - 1, false)) ∧
     (∀ c : Int, c - 10 ≤ 0 → scrollStep 25 (c, false) = (0, true))) :=
  ⟨by decide, scrollUpAndDown_bounded_and_reverses 25 6 (by decide)⟩

/-- The observable state of the extension process: the `isRunning` flag
(line 3), the info and warning messages shown so far, the number of times
`getWorkspaceFiles` has been awaited (a FileSet snapshot taken), and the
file lists handed to launched `runLoop` calls. -/
structure ExtState where
  isRunning : Bool
  infoMsgs : List String
  warnMsgs : List String
  snapshotsTaken : Nat
  launchedLoops : List (List Uri)
deriving DecidableEq, Repr

/-- Embeds the `budgie.startRandomFiles` handler (lines 160-175).
`workspaceFiles` is the list that `getWorkspaceFiles()` would return if
awaited; the `snapshotsTaken` counter records whether it actually was. -/
def startCommand (workspaceFiles : List Uri) (s : ExtState) : ExtState :=
  if s.isRunning then
    { s with infoMsgs := s.infoMsgs ++ ["Budgie is already running!"] }
  else if workspaceFiles.length = 0 then
    { s with snapshotsTaken := s.snapshotsTaken + 1,
             warnMsgs := s.warnMsgs ++ ["No files found in workspace"] }
  else
    { s with isRunning := true,
             snapshotsTaken := s.snapshotsTaken + 1,
             infoMsgs := s.infoMsgs ++
               ["Budgie started! Use \"Budgie: Stop\" to stop."],
             launchedLoops := s.launchedLoops ++ [workspaceFiles] }

/-- Embeds the `budgie.stopRandomFiles` handler (lines 177-184). -/
def stopCommand (s : ExtState) : ExtState :=
  if s.isRunning then
    { s with isRunning := false,
             infoMsgs := s.infoMsgs ++ ["Budgie stopped!"] }
  else
    { s with infoMsgs := s.infoMsgs ++ ["Budgie is not running."] }

/-- **C5.** Starting while running only appends an informational message:
the flag stays `true`, no FileSet snapshot is taken, and no new loop is
launched.  Stopping while stopped only appends an informational message and
leaves everything else unchanged. -/
theorem start_stop_idempotent (s t : ExtState) (workspaceFiles : List Uri)
    (hs : s.isRunning = true) (ht : t.isRunning = false) :
    startCommand workspaceFiles s =
      { s with infoMsgs := s.infoMsgs ++ ["Budgie is already running!"] } ∧
    stopCommand t =
      { t with infoMsgs := t.infoMsgs ++ ["Budgie is not running."] } := by
  constructor
  · unfold startCommand
    rw [if_pos hs]
  · unfold stopCommand
    rw [ht]
    simp

/-- **C5 witness.** -/
theorem start_stop_idempotent_witness :
    ((ExtState.mk true [] [] 0 []).isRunning = true) ∧
    ((ExtState.mk false [] [] 0 []).isRunning = false) ∧
    (startCommand [Uri.mk "a"] (ExtState.mk true [] [] 0 []) =
       { ExtState.mk true [] [] 0 [] with
         infoMsgs := [] ++ ["Budgie is already running!"] } ∧
     stopCommand (ExtState.mk false [] [] 0 []) =
       { ExtState.mk false [] [] 0 [] with
         infoMsgs := [] ++ ["Budgie is not running."] }) :=
  ⟨rfl, rfl, start_stop_idempotent (ExtState.mk true [] [] 0 [])
    (ExtState.mk false [] [] 0 []) [Uri.mk "a"] rfl rfl⟩

/-- **C6.** If the discovered file list is empty when start is invoked from
the stopped state, start shows exactly the warning, the running flag stays
`false`, and no loop is launched (only the snapshot counter advances). -/
theorem start_empty_workspace_no_transition (s : ExtState)
    (hs : s.isRunning = false) (workspaceFiles : List Uri)
    (hempty : workspaceFiles.length = 0) :
    startCommand workspaceFiles s =
      { s with snapshotsTaken := s.snapshotsTaken + 1,
               warnMsgs := s.warnMsgs ++ ["No files found in workspace"] } ∧
    (startCommand workspaceFiles s).isRunning = false ∧
    (startCommand workspaceFiles s).launchedLoops = s.launchedLoops := by
  have h : startCommand workspaceFiles s =
      { s with snapshotsTaken := s.snapshotsTaken + 1,
               warnMsgs := s.warnMsgs ++ ["No files found in workspace"] } := by
    unfold startCommand
    rw [hs]
    simp [hempty]
  exact ⟨h, by rw [h]; exact hs, by rw [h]⟩

/-- **C6 witness.** -/
theorem start_empty_workspace_no_transition_witness :
    ((ExtState.mk false [] [] 0 []).isRunning = false) ∧
    (([] : List Uri).length = 0) ∧
    (startCommand [] (ExtState.mk false [] [] 0 []) =
       { ExtState.mk false [] [] 0 [] with
         snapshotsTaken := 0 + 1,
         warnMsgs := [] ++ ["No files found in workspace"] } ∧
     (startCommand [] (ExtState.mk false [] [] 0 [])).isRunning = false ∧
     (startCommand [] (ExtState.mk false [] [] 0 [])).launchedLoops = []) :=
  ⟨rfl, rfl, start_empty_workspace_no_transition
    (ExtState.mk false [] [] 0 []) rfl [] rfl⟩

/-- Observable events of one execution of `runLoop` (lines 90-155).
`checkpoint s b` records a read of `isRunning` that returned `b` at the
check ending step `s` (`s = 0` for the `while` guard on line 91);
`action s name` records an externally visible action of step `s`;
`exhausted s` records the silent break taken when a random pick at step `s`
returned `undefined`. -/
inductive Event where
  | checkpoint (step : Nat) (running : Bool)
  | action (step : Nat) (name : String)
  | exhausted (step : Nat)
deriving DecidableEq, Repr

/-- `true` exactly on a checkpoint that read `isRunning = false`. -/
def isHalt : Event → Bool
  | .checkpoint _ false => true
  | _ => false

/-- `true` exactly on an `exhausted` break event. -/
def isExhausted : Event → Bool
  | .exhausted _ => true
  | _ => false

/-- Runs a list of `(step, actions)` segments, each guarded by a fresh read
of `isRunning` (the `if (!isRunning) break` checks of `runLoop`): a read of
`false` emits that checkpoint and breaks; a read of `true` emits the
checkpoint, the segment's actions, and continues; when all segments are done
the continuation `tail` runs at the next read index. -/
def chain (run : Nat → Bool) :
    Nat → List (Nat × List Event) → (Nat → List Event) → List Event
  | k, [], tail => tail k
  | k, (s, acts) :: rest, tail =>
    if run k then
      Event.checkpoint s true :: (acts ++ chain run (k + 1) rest tail)
    else [Event.checkpoint s false]

/-- Step 1 (lines 92-99): open `file1`, select random lines, wait 2 s. -/
def stepOneActs : List Event :=
  [.action 1 "openFile", .action 1 "selectRandomLines", .action 1 "sleep2000"]

/-- Step 2 (lines 105-111): open `file2`, wait 3 s.  `file2` (line 106) is
`getRandomFile(files, file1) || file1`: the `|| file1` fallback means this
pick can never break the loop, and the trace does not record which file an
`openFile` action opens, so the pick's value does not appear here. -/
def stepTwoActs : List Event :=
  [.action 2 "openFile", .action 2 "sleep3000"]

/-- Step 3 (lines 116-124): open `file3`, select 5 lines, write the
clipboard, wait 0.5 s. -/
def stepThreeActs : List Event :=
  [.action 3 "openFile", .action 3 "selectRandomLines",
   .action 3 "clipboardWrite", .action 3 "sleep500"]

/-- Step 4 (lines 129-135): open an untitled document, paste, wait 6 s. -/
def stepFourActs : List Event :=
  [.action 4 "openUntitledDocument", .action 4 "pasteCopiedText",
   .action 4 "sleep6000"]

/-- Step 5 (lines 140-142): revert-and-close the active editor, wait 0.5 s. -/
def stepFiveActs : List Event :=
  [.action 5 "revertAndCloseActiveEditor", .action 5 "sleep500"]

/-- Step 6 (lines 147-153): open `file4` and run the scroll animation. -/
def stepSixActs : List Event :=
  [.action 6 "openFile", .action 6 "scrollUpAndDown"]

/-- The trace of events `runLoop files` produces.  `run n` is the value the
`n`-th read of the shared `isRunning` flag returns (the reads are the loop
guard on line 91 and the `!isRunning` checks on lines 94, 100, 107, 112,
118, 125, 136, 143 and 149; an arbitrary oracle covers every interleaving
with the start/stop commands).  `rand n` drives the `n`-th `getRandomFile`
pick of the cycle as in `getRandomFile`.  `fuel` bounds the number of
cycles; the theorems hold for every bound.  On lines 94, 118 and 149 the
source breaks without reading `isRunning` when the picked file is
`undefined` (`!file1` short-circuits `||`), which the trace records as an
`exhausted` event. -/
def runLoopTrace (files : List Uri) (run : Nat → Bool) (rand : Nat → Nat) :
    Nat → Nat → Nat → List Event
  | 0, _, _ => []
  | fuel + 1, k, j =>
    if run k then
      Event.checkpoint 0 true ::
        (match getRandomFile files none (rand j) with
         | none => [Event.exhausted 1]
         | some _file1 =>
           chain run (k + 1)
             [(1, stepOneActs), (1, [Event.action 1 "deselectLines"]),
              (2, stepTwoActs), (2, [])]
             (fun k2 =>
               match getRandomFile files none (rand (j + 2)) with
               | none => [Event.exhausted 3]
               | some _file3 =>
                 chain run k2
                   [(3, stepThreeActs), (3, stepFourActs),
                    (4, stepFiveActs), (5, [])]
                   (fun k3 =>
                     match getRandomFile files none (rand (j + 3)) with
                     | none => [Event.exhausted 6]
                     | some _file4 =>
                       chain run k3 [(6, stepSixActs)]
                         (fun k4 => runLoopTrace files run rand fuel k4 (j + 4)))))
    else [Event.checkpoint 0 false]

/-- A trace in which any checkpoint that read `false` is the final event. -/
def HaltsAtStop (tr : List Event) : Prop :=
  ∀ pre e post, tr = pre ++ e :: post → isHalt e = true → post = []

theorem haltsAtStop_nil : HaltsAtStop [] := by
  intro pre e post h _
  exact absurd h (by simp)

theorem haltsAtStop_singleton (e : Event) : HaltsAtStop [e] := by
  intro pre x post h _
  rcases pre with _ | ⟨a, pre⟩
  · rw [List.nil_append] at h
    exact (List.cons.injEq _ _ _ _ ▸ h).2.symm
  · rw [List.cons_append] at h
    have h2 := (List.cons.injEq _ _ _ _ ▸ h).2
    exact absurd h2.symm (by simp)

theorem haltsAtStop_cons (e : Event) (tr : List Event)
    (he : isHalt e = false) (htr : HaltsAtStop tr) :
    HaltsAtStop (e :: tr) := by
  intro pre x post h hx
  rcases pre with _ | ⟨a, pre⟩
  · rw [List.nil_append] at h
    have h1 := (List.cons.injEq _ _ _ _ ▸ h).1
    rw [← h1] at hx
    rw [he] at hx
    exact absurd hx (by simp)
  · rw [List.cons_append] at h
    have h2 := (List.cons.injEq _ _ _ _ ▸ h).2
    exact htr pre x post h2 hx

theorem haltsAtStop_append (acts tr : List Event)
    (hacts : ∀ e ∈ acts, isHalt e = false) (htr : HaltsAtStop tr) :
    HaltsAtStop (acts ++ tr) := by
  induction acts with
  | nil => simpa using htr
  | cons a acts ih =>
    rw [List.cons_append]
    exact haltsAtStop_cons a (acts ++ tr)
      (hacts a (List.mem_cons_self a acts))
      (ih fun e he => hacts e (List.mem_cons_of_mem a he))

theorem haltsAtStop_chain (run : Nat → Bool)
    (steps : List (Nat × List Event)) (tail : Nat → List Event)
    (hsteps : ∀ p ∈ steps, ∀ e ∈ p.2, isHalt e = false)
    (htail : ∀ k, HaltsAtStop (tail k)) :
    ∀ k, HaltsAtStop (chain run k steps tail) := by
  induction steps with
  | nil => intro k; exact htail k
  | cons p rest ih =>
    intro k
    obtain ⟨s, acts⟩ := p
    rw [chain]
    by_cases hk : run k
    · rw [if_pos hk]
      refine haltsAtStop_cons _ _ rfl ?_
      refine haltsAtStop_append acts _ ?_ ?_
      · exact hsteps (s, acts) (List.mem_cons_self _ _)
      · exact ih (fun q hq => hsteps q (List.mem_cons_of_mem _ hq)) (k + 1)
    · rw [if_neg hk]
      exact haltsAtStop_singleton _

theorem runLoopTrace_haltsAtStop (files : List Uri) (run : Nat → Bool)
    (rand : Nat → Nat) (fuel : Nat) :
    ∀ k j, HaltsAtStop (runLoopTrace files run rand fuel k j) := by
  induction fuel with
  | zero => intro k j; exact haltsAtStop_nil
  | succ n ih =>
    intro k j
    rw [runLoopTrace]
    by_cases hk : run k
    · rw [if_pos hk]
      refine haltsAtStop_cons _ _ rfl ?_
      cases getRandomFile files none (rand j) with
      | none => exact haltsAtStop_singleton _
      | some _ =>
        refine haltsAtStop_chain run _ _ (by decide) ?_ (k + 1)
        intro k2
        cases getRandomFile files none (rand (j + 2)) with
        | none => exact haltsAtStop_singleton _
        | some _ =>
          refine haltsAtStop_chain run _ _ (by decide) ?_ k2
          intro k3
          cases getRandomFile files none (rand (j + 3)) with
          | none => exact haltsAtStop_singleton _
          | some _ =>
            refine haltsAtStop_chain run _ _ (by decide) ?_ k3
            intro k4
            exact ih k4 (j + 4)
    · rw [if_neg hk]
      exact haltsAtStop_singleton _

/-- **C7.** In every execution of `runLoop` — whatever values the shared
`isRunning` flag yields at the successive checkpoints and whatever the
random picks are — a checkpoint that reads `Stopped` is the last event of
the trace: the loop breaks immediately and performs no action of any later
step of the current cycle nor of any subsequent cycle; consequently every
action in the trace is preceded exclusively by checkpoints that read
`Running`. -/
theorem runLoop_checkpoint_stop (files : List Uri) (run : Nat → Bool)
    (rand : Nat → Nat) (fuel k j : Nat) :
    (∀ pre s post,
      runLoopTrace files run rand fuel k j =
        pre ++ Event.checkpoint s false :: post → post = []) ∧
    (∀ pre s name post,
      runLoopTrace files run rand fuel k j =
        pre ++ Event.action s name :: post →
      ∀ t, Event.checkpoint t false ∉ pre) := by
  have hmain := runLoopTrace_haltsAtStop files run rand fuel k j
  constructor
  · intro pre s post h
    exact hmain pre (Event.checkpoint s false) post h rfl
  · intro pre s name post h t hmem
    obtain ⟨p1, p2, hpre⟩ := List.append_of_mem hmem
    rw [hpre, List.append_assoc, List.cons_append] at h
    have := hmain p1 (Event.checkpoint t false)
      (p2 ++ Event.action s name :: post) h rfl
    exact absurd this (by simp)

/-- **C7 witness.** -/
theorem runLoop_checkpoint_stop_witness :
    (runLoopTrace [Uri.mk "a"] (fun _ => false) (fun _ => 0) 1 0 0 =
      [] ++ Event.checkpoint 0 false :: []) ∧ ([] : List Event) = [] :=
  ⟨rfl, (runLoop_checkpoint_stop [Uri.mk "a"] (fun _ => false) (fun _ => 0)
    1 0 0).1 [] 0 [] rfl⟩

theorem no_exhausted_chain (run : Nat → Bool)
    (steps : List (Nat × List Event)) (tail : Nat → List Event)
    (hsteps : ∀ p ∈ steps, ∀ e ∈ p.2, isExhausted e = false)
    (htail : ∀ k, ∀ e ∈ tail k, isExhausted e = false) :
    ∀ k, ∀ e ∈ chain run k steps tail, isExhausted e = false := by
  induction steps with
  | nil => intro k; exact htail k
  | cons p rest ih =>
    intro k e he
    obtain ⟨s, acts⟩ := p
    rw [chain] at he
    by_cases hk : run k
    · rw [if_pos hk] at he
      rcases List.mem_cons.mp he with heq | hmem
      · rw [heq]; rfl
      · rcases List.mem_append.mp hmem with hacts | hrest
        · exact hsteps (s, acts) (List.mem_cons_self _ _) e hacts
        · exact ih (fun q hq => hsteps q (List.mem_cons_of_mem _ hq))
            (k + 1) e hrest
    · rw [if_neg hk] at he
      rcases List.mem_cons.mp he with heq | hmem
      · rw [heq]; rfl
      · exact absurd hmem (by simp)

/-- **C9.** When the file list handed to `runLoop` is non-empty, every
`getRandomFile` call made without an exclusion (steps 1, 3 and 6) returns
some file, so the silent loop-break branches guarded by a missing file are
unreachable: no execution trace contains an `exhausted` event, for any
checkpoint oracle, any random values and any number of cycles. -/
theorem runLoop_no_exhaustion (files : List Uri) (h : files ≠ []) :
    (∀ rand0 : Nat, (getRandomFile files none rand0).isSome) ∧
    (∀ (run : Nat → Bool) (rand : Nat → Nat) (fuel k j : Nat),
      ∀ e ∈ runLoopTrace files run rand fuel k j, isExhausted e = false) := by
  refine ⟨fun rand0 => getRandomFile_isSome_of_ne_nil files rand0 h, ?_⟩
  intro run rand fuel
  induction fuel with
  | zero => intro k j e he; exact absurd he (by simp [runLoopTrace])
  | succ n ih =>
    intro k j e he
    rw [runLoopTrace] at he
    by_cases hk : run k
    · rw [if_pos hk] at he
      rcases List.mem_cons.mp he with heq | hmem
      · rw [heq]; rfl
      · cases hpick1 : getRandomFile files none (rand j) with
        | none =>
          have := getRandomFile_isSome_of_ne_nil files (rand j) h
          rw [hpick1] at this
          exact absurd this (by simp)
        | some f1 =>
          rw [hpick1] at hmem
          refine no_exhausted_chain run _ _ (by decide) ?_ (k + 1) e hmem
          intro k2 e2 he2
          cases hpick3 : getRandomFile files none (rand (j + 2)) with
          | none =>
            have := getRandomFile_isSome_of_ne_nil files (rand (j + 2)) h
            rw [hpick3] at this
            exact absurd this (by simp)
          | some f3 =>
            rw [hpick3] at he2
            refine no_exhausted_chain run _ _ (by decide) ?_ k2 e2 he2
            intro k3 e3 he3
            cases hpick4 : getRandomFile files none (rand (j + 3)) with
            | none =>
              have := getRandomFile_isSome_of_ne_nil files (rand (j + 3)) h
              rw [hpick4] at this
              exact absurd this (by simp)
            | some f4 =>
              rw [hpick4] at he3
              refine no_exhausted_chain run _ _ (by decide) ?_ k3 e3 he3
              intro k4 e4 he4
              exact ih k4 (j + 4) e4 he4
    · rw [if_neg hk] at he
      rcases List.mem_cons.mp he with heq | hmem
      · rw [heq]; rfl
      · exact absurd hmem (by simp)

/-- **C9 witness.** -/
theorem runLoop_no_exhaustion_witness :
    ([Uri.mk "a"] ≠ ([] : List Uri)) ∧
    ((∀ rand0 : Nat, (getRandomFile [Uri.mk "a"] none rand0).isSome) ∧
     (∀ (run : Nat → Bool) (rand : Nat → Nat) (fuel k j : Nat),
       ∀ e ∈ runLoopTrace [Uri.mk "a"] run rand fuel k j,
         isExhausted e = false)) :=
  ⟨by decide, runLoop_no_exhaustion [Uri.mk "a"] (by decide)⟩

end Budgie
